import Mathlib

set_option maxHeartbeats 1000000

/-
Verification development for the `server/api/mcp-chat.ts` endpoint of the
nuxt-openai repository: an action-dispatched HTTP handler over an in-memory
session store (`sessionsCache : Map<string, MCPSession>`) persisted as one
JSON file (`.data/mcp-sessions.json`).

The embedding is shallow:
- machine state (the module-level `sessionsCache` and the persisted file) is
  threaded explicitly through each operation;
- `Date` instants are naturals (milliseconds since the Unix epoch); the
  library pair `Date.prototype.toISOString` / `new Date(string)` used by
  `saveSessions` (via `JSON.stringify`) and `loadSessions` is modelled by an
  executable ISO-8601 codec (`isoOfMs` / `msOfIso`);
- `JSON.stringify` / `JSON.parse` are modelled as conversion to and from a
  JSON value tree (`Json`), leaving string rendering to the JSON library;
- the nondeterministic inputs (`generateId()`, `new Date()`, whether a disk
  write succeeds, the runtime API key) are explicit parameters;
- `streamText(...).toDataStreamResponse()` is modelled by a `stream` response
  carrying the message list submitted to the model provider; the deferred
  `onFinish` append is modelled by a separate transition
  (`handleSessionChatFinish`).
-/

/-! ### Calendar arithmetic (internals of the Date ISO codec)

Days since 1970-01-01 to and from a proleptic Gregorian civil date, by
decomposing into 400/100/4/1-year blocks. This is the arithmetic that
`Date.prototype.toISOString` and `new Date(string)` perform on the date
part of an instant. -/

def civilFromDays (days : Nat) : Nat × Nat × Nat :=
  let g := days + 719468
  let n400 := g / 146097
  let r1 := g % 146097
  let n100 := min (r1 / 36524) 3
  let r2 := r1 - 36524 * n100
  let n4 := r2 / 1461
  let r3 := r2 % 1461
  let n1 := min (r3 / 365) 3
  let doy := r3 - 365 * n1
  let yoe := 100 * n100 + (4 * n4 + n1)
  let y := 400 * n400 + yoe
  let mp := (5 * doy + 2) / 153
  let d := doy - (153 * mp + 2) / 5 + 1
  let m := if mp < 10 then mp + 3 else mp - 9
  (if m ≤ 2 then y + 1 else y, m, d)

def daysFromCivil (y m d : Nat) : Nat :=
  let y2 := if m ≤ 2 then y - 1 else y
  let n400 := y2 / 400
  let yoe := y2 % 400
  let mp := if 2 < m then m - 3 else m + 9
  let doy := (153 * mp + 2) / 5 + d - 1
  146097 * n400 + 36524 * (yoe / 100) + 1461 * (yoe % 100 / 4) + 365 * (yoe % 4) +
    doy - 719468

example : civilFromDays 0 = (1970, 1, 1) := by decide
example : daysFromCivil 1970 1 1 = 0 := by decide
example : civilFromDays 19722 = (2023, 12, 31) := by decide
example : civilFromDays 11016 = (2000, 2, 29) := by decide
example : civilFromDays 2932896 = (9999, 12, 31) := by decide

theorem civilFromDays_daysFromCivil (z y m d : Nat) (h : civilFromDays z = (y, m, d)) :
    daysFromCivil y m d = z ∧ 1 ≤ m ∧ m ≤ 12 ∧ 1 ≤ d ∧ d ≤ 31 ∧
    (z ≤ 2932896 → y ≤ 9999) := by
  simp only [civilFromDays, Prod.mk.injEq] at h
  obtain ⟨n400, hn400⟩ : ∃ q, (z + 719468) / 146097 = q := ⟨_, rfl⟩
  obtain ⟨r1, hr1⟩ : ∃ r, (z + 719468) % 146097 = r := ⟨_, rfl⟩
  have hr1b : r1 < 146097 := hr1 ▸ Nat.mod_lt _ (by norm_num)
  have hG : 146097 * n400 + r1 = z + 719468 := by
    rw [← hn400, ← hr1]; exact Nat.div_add_mod _ _
  rw [hn400, hr1] at h
  obtain ⟨w1, hw1⟩ : ∃ q, r1 / 36524 = q := ⟨_, rfl⟩
  rw [hw1] at h
  obtain ⟨n100, hn100⟩ : ∃ q, min w1 3 = q := ⟨_, rfl⟩
  rw [hn100] at h
  obtain ⟨r2, hr2⟩ : ∃ r, r1 - 36524 * n100 = r := ⟨_, rfl⟩
  rw [hr2] at h
  obtain ⟨n4, hn4⟩ : ∃ q, r2 / 1461 = q := ⟨_, rfl⟩
  obtain ⟨r3, hr3⟩ : ∃ r, r2 % 1461 = r := ⟨_, rfl⟩
  rw [hn4, hr3] at h
  obtain ⟨w2, hw2⟩ : ∃ q, r3 / 365 = q := ⟨_, rfl⟩
  rw [hw2] at h
  obtain ⟨n1, hn1⟩ : ∃ q, min w2 3 = q := ⟨_, rfl⟩
  rw [hn1] at h
  obtain ⟨doy, hdoy⟩ : ∃ r, r3 - 365 * n1 = r := ⟨_, rfl⟩
  rw [hdoy] at h
  obtain ⟨mp, hmp⟩ : ∃ q, (5 * doy + 2) / 153 = q := ⟨_, rfl⟩
  rw [hmp] at h
  obtain ⟨q5, hq5⟩ : ∃ q, (153 * mp + 2) / 5 = q := ⟨_, rfl⟩
  rw [hq5] at h
  obtain ⟨v, hv⟩ : ∃ r, doy - q5 = r := ⟨_, rfl⟩
  rw [hv] at h
  have hn100b : n100 ≤ 3 := by omega
  have hr2b : r2 ≤ 36524 := by omega
  have hr2eq : 36524 * n100 + r2 = r1 := by omega
  have hn4b : n4 ≤ 24 := by omega
  have hr3b : r3 ≤ 1460 := by omega
  have hr3eq : 1461 * n4 + r3 = r2 := by omega
  have hn1b : n1 ≤ 3 := by omega
  have hdoyb : doy ≤ 365 := by omega
  have hdoyeq : 365 * n1 + doy = r3 := by omega
  have hmpb : mp ≤ 11 := by omega
  have hq5b : q5 ≤ doy := by omega
  have hveq : q5 + v = doy := by omega
  have hvb : v ≤ 30 := by omega
  have e1 : (400 * n400 + (100 * n100 + (4 * n4 + n1))) / 400 = n400 := by
    rw [Nat.mul_add_div (by norm_num : (0:Nat) < 400), Nat.div_eq_of_lt (by omega)]
    omega
  have e2 : (400 * n400 + (100 * n100 + (4 * n4 + n1))) % 400
      = 100 * n100 + (4 * n4 + n1) := by
    rw [Nat.mul_add_mod, Nat.mod_eq_of_lt (by omega)]
  have e3 : (100 * n100 + (4 * n4 + n1)) / 100 = n100 := by
    rw [Nat.mul_add_div (by norm_num : (0:Nat) < 100), Nat.div_eq_of_lt (by omega)]
    omega
  have e4 : (100 * n100 + (4 * n4 + n1)) % 100 = 4 * n4 + n1 := by
    rw [Nat.mul_add_mod, Nat.mod_eq_of_lt (by omega)]
  have e5 : (4 * n4 + n1) / 4 = n4 := by
    rw [Nat.mul_add_div (by norm_num : (0:Nat) < 4), Nat.div_eq_of_lt (by omega)]
    omega
  have e6 : (100 * n100 + (4 * n4 + n1)) % 4 = n1 := by
    have h4 : 100 * n100 + (4 * n4 + n1) = 4 * (25 * n100 + n4) + n1 := by ring
    rw [h4, Nat.mul_add_mod, Nat.mod_eq_of_lt (by omega)]
  obtain ⟨hy, hm, hd⟩ := h
  by_cases hc : mp < 10
  · rw [if_pos hc] at hy hm
    rw [if_neg (by omega : ¬ mp + 3 ≤ 2)] at hy
    subst hm hy hd
    simp only [daysFromCivil]
    rw [if_neg (by omega : ¬ mp + 3 ≤ 2), if_pos (by omega : 2 < mp + 3),
        Nat.add_sub_cancel, e1, e2, e3, e4, e5, e6, hq5]
    have e7 : q5 + (v + 1) - 1 = q5 + v := by omega
    rw [e7]
    omega
  · rw [if_neg hc] at hy hm
    rw [if_pos (by omega : mp - 9 ≤ 2)] at hy
    subst hm hy hd
    simp only [daysFromCivil]
    rw [if_pos (by omega : mp - 9 ≤ 2), if_neg (by omega : ¬ 2 < mp - 9),
        Nat.add_sub_cancel, Nat.sub_add_cancel (by omega : 9 ≤ mp),
        e1, e2, e3, e4, e5, e6, hq5]
    have e7 : q5 + (v + 1) - 1 = q5 + v := by omega
    rw [e7]
    omega

/-! ### The ISO-8601 codec

`isoOfMs` renders a millisecond instant exactly as
`Date.prototype.toISOString` does for years 0-9999 (the range of every
`Date.now()` the handler stores); `msOfIso` recovers the instant as
`new Date(isoString).getTime()` does. -/

def digitChar (n : Nat) : Char := Char.ofNat (48 + n)

def digitVal (c : Char) : Option Nat :=
  if 48 ≤ c.toNat ∧ c.toNat ≤ 57 then some (c.toNat - 48) else none

theorem digitVal_digitChar : ∀ k < 10, digitVal (digitChar k) = some k := by decide

def pad2 (n : Nat) : List Char := [digitChar (n / 10 % 10), digitChar (n % 10)]

def pad3 (n : Nat) : List Char :=
  [digitChar (n / 100 % 10), digitChar (n / 10 % 10), digitChar (n % 10)]

def pad4 (n : Nat) : List Char :=
  [digitChar (n / 1000 % 10), digitChar (n / 100 % 10), digitChar (n / 10 % 10),
   digitChar (n % 10)]

def parse2 (a b : Char) : Option Nat :=
  match digitVal a, digitVal b with
  | some x, some y => some (10 * x + y)
  | _, _ => none

def parse3 (a b c : Char) : Option Nat :=
  match digitVal a, digitVal b, digitVal c with
  | some x, some y, some z => some (100 * x + 10 * y + z)
  | _, _, _ => none

def parse4 (a b c d : Char) : Option Nat :=
  match digitVal a, digitVal b, digitVal c, digitVal d with
  | some w, some x, some y, some z => some (1000 * w + 100 * x + 10 * y + z)
  | _, _, _, _ => none

def isoCharsOfMs (ms : Nat) : List Char :=
  let c := civilFromDays (ms / 86400000)
  let rem := ms % 86400000
  pad4 c.1 ++ '-' :: pad2 c.2.1 ++ '-' :: pad2 c.2.2 ++ 'T' :: pad2 (rem / 3600000) ++
    ':' :: pad2 (rem % 3600000 / 60000) ++ ':' :: pad2 (rem % 60000 / 1000) ++
    '.' :: pad3 (rem % 1000) ++ ['Z']

def isoOfMs (ms : Nat) : String := String.mk (isoCharsOfMs ms)

def parseIsoChars (cs : List Char) : Option Nat :=
  match cs with
  | [y1, y2, y3, y4, c1, m1, m2, c2, d1, d2, c3, h1, h2, c4, i1, i2, c5, s1, s2,
     c6, f1, f2, f3, c7] =>
    if c1 == '-' && c2 == '-' && c3 == 'T' && c4 == ':' && c5 == ':' && c6 == '.' &&
        c7 == 'Z' then
      match parse4 y1 y2 y3 y4, parse2 m1 m2, parse2 d1 d2, parse2 h1 h2,
          parse2 i1 i2, parse2 s1 s2, parse3 f1 f2 f3 with
      | some yy, some mo, some dd, some hh, some mi, some ss, some ff =>
        some (daysFromCivil yy mo dd * 86400000 + hh * 3600000 + mi * 60000 +
          ss * 1000 + ff)
      | _, _, _, _, _, _, _ => none
    else none
  | _ => none

def msOfIso (s : String) : Option Nat := parseIsoChars s.data

example : isoOfMs 0 = "1970-01-01T00:00:00.000Z" := by decide
example : msOfIso "1970-01-01T00:00:00.000Z" = some 0 := by decide
example : isoOfMs 1700000000123 = "2023-11-14T22:13:20.123Z" := by decide
example : msOfIso "2023-11-14T22:13:20.123Z" = some 1700000000123 := by decide

theorem parse2_pad2 (n : Nat) (hn : n < 100) :
    parse2 (digitChar (n / 10 % 10)) (digitChar (n % 10)) = some n := by
  have h1 := digitVal_digitChar (n / 10 % 10) (by omega)
  have h2 := digitVal_digitChar (n % 10) (by omega)
  simp only [parse2, h1, h2, Option.some.injEq]
  omega

theorem parse3_pad3 (n : Nat) (hn : n < 1000) :
    parse3 (digitChar (n / 100 % 10)) (digitChar (n / 10 % 10)) (digitChar (n % 10))
      = some n := by
  have h1 := digitVal_digitChar (n / 100 % 10) (by omega)
  have h2 := digitVal_digitChar (n / 10 % 10) (by omega)
  have h3 := digitVal_digitChar (n % 10) (by omega)
  simp only [parse3, h1, h2, h3, Option.some.injEq]
  omega

theorem parse4_pad4 (n : Nat) (hn : n < 10000) :
    parse4 (digitChar (n / 1000 % 10)) (digitChar (n / 100 % 10))
      (digitChar (n / 10 % 10)) (digitChar (n % 10)) = some n := by
  have h1 := digitVal_digitChar (n / 1000 % 10) (by omega)
  have h2 := digitVal_digitChar (n / 100 % 10) (by omega)
  have h3 := digitVal_digitChar (n / 10 % 10) (by omega)
  have h4 := digitVal_digitChar (n % 10) (by omega)
  simp only [parse4, h1, h2, h3, h4, Option.some.injEq]
  omega

/-- Bound below which an instant has a four-digit year (start of year 10000);
`toISOString` uses the plain `YYYY-` form exactly for those instants. -/
def isoBound : Nat := 253402300800000

theorem msOfIso_isoOfMs (ms : Nat) (h : ms < isoBound) :
    msOfIso (isoOfMs ms) = some ms := by
  have h2 : ms < 253402300800000 := h
  obtain ⟨days, hdays⟩ : ∃ q, ms / 86400000 = q := ⟨_, rfl⟩
  obtain ⟨rem, hrem⟩ : ∃ r, ms % 86400000 = r := ⟨_, rfl⟩
  have hremb : rem < 86400000 := hrem ▸ Nat.mod_lt _ (by norm_num)
  have hmseq : 86400000 * days + rem = ms := by
    rw [← hdays, ← hrem]; exact Nat.div_add_mod _ _
  have hdaysb : days ≤ 2932896 := by omega
  obtain ⟨y, m, d, hymd⟩ : ∃ a b c, civilFromDays days = (a, b, c) :=
    ⟨_, _, _, rfl⟩
  obtain ⟨hback, hm1, hm2, hd1, hd2, hy⟩ := civilFromDays_daysFromCivil days y m d hymd
  have hyb : y ≤ 9999 := hy hdaysb
  simp only [msOfIso, isoOfMs, isoCharsOfMs, hdays, hrem, hymd]
  simp only [pad4, pad2, pad3, List.cons_append, List.nil_append]
  simp only [parseIsoChars]
  rw [if_pos (by decide)]
  rw [parse4_pad4 y (by omega), parse2_pad2 m (by omega), parse2_pad2 d (by omega),
      parse2_pad2 (rem / 3600000) (by omega),
      parse2_pad2 (rem % 3600000 / 60000) (by omega),
      parse2_pad2 (rem % 60000 / 1000) (by omega),
      parse3_pad3 (rem % 1000) (by omega)]
  simp only [Option.some.injEq]
  rw [hback]
  omega

/-! ### Data model

Mirrors the `MCPSession` type of `server/api/mcp-chat.ts`: role-tagged
messages with an optional `name`, an opaque metadata bag (JSON object
fields), and two `Date` fields held as millisecond instants. -/

inductive Json where
  | str (s : String)
  | arr (elems : List Json)
  | obj (fields : List (String × Json))

inductive Role where
  | system
  | user
  | assistant
  | tool
deriving DecidableEq, Repr

structure Message where
  role : Role
  content : String
  name : Option String
deriving DecidableEq, Repr

structure MCPSession where
  conversationId : String
  messages : List Message
  metadata : List (String × Json)
  createdAt : Nat
  updatedAt : Nat

/-- The in-memory `sessionsCache` map, as its entry list in insertion order
(JS `Map` iteration order). -/
abbrev Store : Type := List (String × MCPSession)

/-! ### JS Map operations used by the handler -/

def mapGet (m : Store) (k : String) : Option MCPSession :=
  (List.find? (fun p => p.1 == k) m).map (fun p => p.2)

def mapHas (m : Store) (k : String) : Bool :=
  List.any m (fun p => p.1 == k)

def mapSet (m : Store) (k : String) (v : MCPSession) : Store :=
  if mapHas m k then List.map (fun p => if p.1 == k then (k, v) else p) m
  else m ++ [(k, v)]

def mapDelete (m : Store) (k : String) : Store :=
  List.filter (fun p => !(p.1 == k)) m

/-! ### Persistence

`saveSessions` copies the cache into a record and `JSON.stringify`s it:
each session serializes its fields in declaration order, `Date`s as their
ISO strings, and an absent optional `name` is omitted. `loadSessions`
`JSON.parse`s the file and rebuilds `Date`s with `new Date(string)`.
The source casts parsed objects without validation; the decoders below
return `none` on a shape the serializer can never produce. -/

def roleToString : Role → String
  | .system => "system"
  | .user => "user"
  | .assistant => "assistant"
  | .tool => "tool"

def roleOfString (s : String) : Option Role :=
  if s = "system" then some .system
  else if s = "user" then some .user
  else if s = "assistant" then some .assistant
  else if s = "tool" then some .tool
  else none

def lookupField (fields : List (String × Json)) (k : String) : Option Json :=
  (List.find? (fun p => p.1 == k) fields).map (fun p => p.2)

def messageToJson (m : Message) : Json :=
  .obj ([("role", .str (roleToString m.role)), ("content", .str m.content)] ++
    (match m.name with
     | some n => [("name", Json.str n)]
     | none => []))

def messageOfJson : Json → Option Message
  | .obj fields =>
    match lookupField fields "role", lookupField fields "content" with
    | some (.str r), some (.str c) =>
      match roleOfString r with
      | some role =>
        some ⟨role, c,
          match lookupField fields "name" with
          | some (.str n) => some n
          | _ => none⟩
      | none => none
    | _, _ => none
  | _ => none

def sessionToJson (s : MCPSession) : Json :=
  .obj [("conversationId", .str s.conversationId),
        ("messages", .arr (s.messages.map messageToJson)),
        ("metadata", .obj s.metadata),
        ("createdAt", .str (isoOfMs s.createdAt)),
        ("updatedAt", .str (isoOfMs s.updatedAt))]

def decodeMessages : List Json → Option (List Message)
  | [] => some []
  | j :: rest =>
    match messageOfJson j, decodeMessages rest with
    | some m, some ms => some (m :: ms)
    | _, _ => none

def sessionOfJson : Json → Option MCPSession
  | .obj fields =>
    match lookupField fields "conversationId", lookupField fields "messages",
        lookupField fields "metadata", lookupField fields "createdAt",
        lookupField fields "updatedAt" with
    | some (.str cid), some (.arr msgs), some (.obj md), some (.str ca),
        some (.str ua) =>
      match decodeMessages msgs, msOfIso ca, msOfIso ua with
      | some ms, some can, some uan => some ⟨cid, ms, md, can, uan⟩
      | _, _, _ => none
    | _, _, _, _, _ => none
  | _ => none

/-- The file content `saveSessions` writes: the whole cache as one JSON
object keyed by conversation id. -/
def storeToJson (st : Store) : Json :=
  .obj (st.map (fun p => (p.1, sessionToJson p.2)))

/-- Persisted-file state transition of `saveSessions`: on success the file
is overwritten with the serialized cache; a write error is caught and
logged, leaving the previous contents. -/
def saveSessions (saveOk : Bool) (st : Store) (file : Option Json) : Option Json :=
  if saveOk then some (storeToJson st) else file

def loadStoreEntries : List (String × Json) → Store → Store
  | [], cache => cache
  | (id, sj) :: rest, cache =>
    match sessionOfJson sj with
    | some s => loadStoreEntries rest (mapSet cache id s)
    | none => loadStoreEntries rest cache

/-- `loadSessions` at process start: `none` models a missing file or a
read/parse error, both of which are caught, leaving the cache empty. -/
def loadSessions : Option Json → Store
  | some (.obj entries) => loadStoreEntries entries []
  | _ => []

/-! ### The event handler

`defineEventHandler` of `server/api/mcp-chat.ts`. A request body is the
fields the handler reads: `action`, `conversationId`, `metadata`,
`messages`, and `data.conversationId`. `freshId` stands for the
`generateId()` draw and `now` for `new Date()`. -/

structure Body where
  action : Option String
  conversationId : Option String
  metadata : Option (List (String × Json))
  messages : Option (List Message)
  dataConversationId : Option String

inductive Response where
  | created (conversationId : String) (metadata : List (String × Json))
      (createdAt : String) (messageCount : Nat)
  | sessionInfo (conversationId : String) (metadata : List (String × Json))
      (createdAt : String) (updatedAt : String) (messageCount : Nat)
  | deleted (success : Bool) (message : String)
  | stream (providerMessages : List Message)

/-- Everything a branch of the `try` block can throw: `createError` values,
or a runtime `TypeError` (indexing `body.messages` when it is absent). -/
inductive Thrown where
  | h3 (statusCode : Nat) (message : String)
  | typeError (message : String)

inductive HandlerResult where
  | ok (r : Response)
  | err (statusCode : Nat) (message : String)

/-- JS truthiness of an optional string field: `undefined` and `""` are
falsy. -/
def falsyStr : Option String → Option String
  | none => none
  | some s => if s.isEmpty then none else some s

def missingApiKey : Option String → Bool
  | none => true
  | some k => k.isEmpty

def createSession (saveOk : Bool) (st : Store) (file : Option Json)
    (metadata : List (String × Json)) (freshId : String) (now : Nat) :
    Response × Store × Option Json :=
  let session : MCPSession := ⟨freshId, [], metadata, now, now⟩
  let st2 := mapSet st freshId session
  (.created freshId metadata (isoOfMs now) 0, st2, saveSessions saveOk st2 file)

def getSessionInfo (st : Store) (conversationId : String) : Except Thrown Response :=
  match mapGet st conversationId with
  | none => .error (.h3 404 ("Session not found: " ++ conversationId))
  | some session =>
    .ok (.sessionInfo session.conversationId session.metadata
      (isoOfMs session.createdAt) (isoOfMs session.updatedAt)
      session.messages.length)

def deleteSession (saveOk : Bool) (st : Store) (file : Option Json)
    (conversationId : String) : Response × Store × Option Json :=
  let present := mapHas st conversationId
  let st2 := mapDelete st conversationId
  (.deleted present (if present then "Session deleted" else "Session not found"),
   st2, if present then saveSessions saveOk st2 file else file)

def handleDirectChat (messages : Option (List Message)) : Response :=
  .stream (messages.getD [])

def formatMessages (msgs : List Message) : List Message :=
  msgs.map (fun m => ⟨m.role, m.content, m.name⟩)

def handleSessionChat (session : MCPSession) : Response :=
  .stream (formatMessages session.messages)

/-- User-turn append of the chat branch: push the newest message with role
`"user"` and refresh `updatedAt` (lines 165-171 of the source). -/
def appendUserTurn (session : MCPSession) (content : String) (now : Nat) :
    MCPSession :=
  { session with
    messages := session.messages ++ [⟨Role.user, content, none⟩],
    updatedAt := now }

/-- The `onFinish` append of `handleSessionChat`: push the assembled reply
as an assistant message (lines 246-251); no other session field is
touched. -/
def onFinishAppend (session : MCPSession) (text : String) : MCPSession :=
  { session with messages := session.messages ++ [⟨Role.assistant, text, none⟩] }

/-- Store-level effect of the `onFinish` callback: the captured session
object is mutated and the cache persisted; if the session was deleted from
the cache meanwhile, only the orphaned object changes. -/
def handleSessionChatFinish (saveOk : Bool) (st : Store) (file : Option Json)
    (conversationId : String) (text : String) : Store × Option Json :=
  match mapGet st conversationId with
  | some session =>
    let st2 := mapSet st conversationId (onFinishAppend session text)
    (st2, saveSessions saveOk st2 file)
  | none => (st, file)

/-- The `switch (action)` inside the `try` block. -/
def dispatch (saveOk : Bool) (st : Store) (file : Option Json) (body : Body)
    (freshId : String) (now : Nat) :
    Except Thrown (Response × Store × Option Json) :=
  let action := (falsyStr body.action).getD "chat"
  if action = "create" then
    .ok (createSession saveOk st file (body.metadata.getD []) freshId now)
  else if action = "get" then
    match falsyStr body.conversationId with
    | none => .error (.h3 400 "Missing conversationId for get action")
    | some cid => (getSessionInfo st cid).map (fun r => (r, st, file))
  else if action = "delete" then
    match falsyStr body.conversationId with
    | none => .error (.h3 400 "Missing conversationId for delete action")
    | some cid => .ok (deleteSession saveOk st file cid)
  else
    match falsyStr body.dataConversationId with
    | none => .ok (handleDirectChat body.messages, st, file)
    | some cid =>
      match mapGet st cid with
      | none => .error (.h3 404 ("Session not found: " ++ cid))
      | some session =>
        match body.messages with
        | none => .error (.typeError "Cannot read properties of undefined")
        | some msgs =>
          match msgs.getLast? with
          | none => .error (.h3 400 "Invalid message format")
          | some latest =>
            if latest.role = Role.user then
              let session2 := appendUserTurn session latest.content now
              let st2 := mapSet st cid session2
              .ok (handleSessionChat session2, st2, saveSessions saveOk st2 file)
            else .error (.h3 400 "Invalid message format")

/-- The whole endpoint: the API-key guard sits before the `try` block, and
the `catch` replaces anything thrown inside it by a 500 with a generic
message, leaving cache and file as they were (no branch mutates before it
throws). -/
def mcpChatHandler (apiKey : Option String) (saveOk : Bool) (st : Store)
    (file : Option Json) (body : Body) (freshId : String) (now : Nat) :
    HandlerResult × Store × Option Json :=
  if missingApiKey apiKey then
    (.err 500 "Missing OpenAI API key", st, file)
  else
    match dispatch saveOk st file body freshId now with
    | .ok (r, st2, file2) => (.ok r, st2, file2)
    | .error _ => (.err 500 "Failed to process request", st, file)

/-! ### Round-trip lemmas for the persisted file -/

theorem roleOfString_roleToString (r : Role) :
    roleOfString (roleToString r) = some r := by
  cases r <;> simp [roleToString, roleOfString]

theorem messageOfJson_messageToJson (m : Message) :
    messageOfJson (messageToJson m) = some m := by
  cases m with
  | mk role content name =>
    cases name <;>
      simp [messageToJson, messageOfJson, lookupField, List.find?,
        roleOfString_roleToString]

theorem decodeMessages_map (l : List Message) :
    decodeMessages (l.map messageToJson) = some l := by
  induction l with
  | nil => rfl
  | cons m rest ih => simp [decodeMessages, messageOfJson_messageToJson, ih]

theorem sessionToJson_mk (cid : String) (msgs : List Message)
    (md : List (String × Json)) (ca ua : Nat) :
    sessionToJson ⟨cid, msgs, md, ca, ua⟩
      = Json.obj [("conversationId", Json.str cid),
          ("messages", Json.arr (msgs.map messageToJson)),
          ("metadata", Json.obj md),
          ("createdAt", Json.str (isoOfMs ca)),
          ("updatedAt", Json.str (isoOfMs ua))] := rfl

theorem sessionOfJson_obj (cid : String) (msgsJ : List Json)
    (mdJ : List (String × Json)) (caS uaS : String) :
    sessionOfJson (Json.obj [("conversationId", Json.str cid),
        ("messages", Json.arr msgsJ), ("metadata", Json.obj mdJ),
        ("createdAt", Json.str caS), ("updatedAt", Json.str uaS)])
      = (match decodeMessages msgsJ, msOfIso caS, msOfIso uaS with
         | some ms, some can, some uan => some ⟨cid, ms, mdJ, can, uan⟩
         | _, _, _ => none) := rfl

theorem sessionOfJson_sessionToJson (s : MCPSession)
    (h1 : s.createdAt < isoBound) (h2 : s.updatedAt < isoBound) :
    sessionOfJson (sessionToJson s) = some s := by
  obtain ⟨cid, msgs, md, ca, ua⟩ := s
  simp only at h1 h2
  rw [sessionToJson_mk, sessionOfJson_obj, decodeMessages_map,
      msOfIso_isoOfMs _ h1, msOfIso_isoOfMs _ h2]

theorem mapSet_not_has (m : Store) (k : String) (v : MCPSession)
    (h : mapHas m k = false) : mapSet m k v = m ++ [(k, v)] := by
  simp [mapSet, h]

theorem mapHas_append_single (m : Store) (k k2 : String) (v : MCPSession)
    (h : mapHas m k = false) (hne : k2 ≠ k) :
    mapHas (m ++ [(k2, v)]) k = false := by
  simp only [mapHas] at h ⊢
  simp [List.any_append, h, hne]

theorem loadStoreEntries_decoded (l : Store) (cache : Store)
    (hdec : ∀ p ∈ l, sessionOfJson (sessionToJson p.2) = some p.2)
    (hnew : ∀ p ∈ l, mapHas cache p.1 = false)
    (hnodup : (l.map Prod.fst).Nodup) :
    loadStoreEntries (l.map (fun p => (p.1, sessionToJson p.2))) cache = cache ++ l := by
  induction l generalizing cache with
  | nil => simp [loadStoreEntries]
  | cons p rest ih =>
    obtain ⟨k, s⟩ := p
    have hd : sessionOfJson (sessionToJson s) = some s := hdec (k, s) (by simp)
    have hn : mapHas cache k = false := hnew (k, s) (by simp)
    have hnod : k ∉ List.map Prod.fst rest ∧ (List.map Prod.fst rest).Nodup := by
      rw [List.map_cons] at hnodup
      exact List.nodup_cons.mp hnodup
    simp only [List.map_cons, loadStoreEntries, hd]
    rw [mapSet_not_has _ _ _ hn]
    rw [ih (cache ++ [(k, s)])
        (fun q hq => hdec q (List.mem_cons_of_mem _ hq))
        (fun q hq => mapHas_append_single _ _ _ _
          (hnew q (List.mem_cons_of_mem _ hq))
          (fun hk => hnod.1 (hk ▸ List.mem_map_of_mem Prod.fst hq)))
        hnod.2]
    simp

theorem loadSessions_storeToJson (st : Store)
    (hnodup : (st.map Prod.fst).Nodup)
    (hbound : ∀ p ∈ st, p.2.createdAt < isoBound ∧ p.2.updatedAt < isoBound) :
    loadSessions (some (storeToJson st)) = st := by
  simp only [loadSessions, storeToJson]
  rw [loadStoreEntries_decoded st []
      (fun p hp => sessionOfJson_sessionToJson p.2 (hbound p hp).1 (hbound p hp).2)
      (fun p _ => rfl) hnodup]
  simp

/-! ### Map lemmas for the lifecycle claims -/

theorem mapGet_mapSet_self (m : Store) (k : String) (v : MCPSession) :
    mapGet (mapSet m k v) k = some v := by
  by_cases h : mapHas m k
  · simp only [mapSet, if_pos h]
    simp only [mapHas] at h
    induction m with
    | nil => simp at h
    | cons p rest ih =>
      by_cases hp : p.1 == k
      · simp [mapGet, List.find?, hp]
      · simp only [List.any_cons, hp, Bool.false_or] at h
        simp only [List.map_cons, if_neg hp]
        simpa [mapGet, List.find?, hp] using ih h
  · rw [mapSet_not_has _ _ _ (by simpa using h)]
    simp only [mapHas] at h
    induction m with
    | nil => simp [mapGet, List.find?]
    | cons p rest ih =>
      by_cases hp : p.1 == k
      · simp [hp] at h
      · simp only [List.any_cons, hp, Bool.false_or] at h
        simpa [mapGet, List.find?, hp] using ih (by simpa using h)

theorem mapHas_mapDelete (m : Store) (k : String) :
    mapHas (mapDelete m k) k = false := by
  induction m with
  | nil => rfl
  | cons p rest ih =>
    by_cases hp : p.1 == k
    · simpa [mapDelete, List.filter, hp] using ih
    · simpa [mapDelete, mapHas, List.filter, hp] using ih

theorem mapDelete_mapDelete (m : Store) (k : String) :
    mapDelete (mapDelete m k) k = mapDelete m k := by
  induction m with
  | nil => rfl
  | cons p rest ih =>
    by_cases hp : p.1 == k
    · simpa [mapDelete, List.filter, hp] using ih
    · simpa [mapDelete, List.filter, hp] using ih

theorem dispatch_saveFail (st : Store) (file : Option Json) (body : Body)
    (freshId : String) (now : Nat) :
    dispatch false st file body freshId now =
      Except.map (fun r => (r.1, r.2.1, file))
        (dispatch true st file body freshId now) := by
  by_cases ha1 : (falsyStr body.action).getD "chat" = "create"
  · simp [dispatch, ha1, createSession, saveSessions, Except.map]
  · by_cases ha2 : (falsyStr body.action).getD "chat" = "get"
    · cases hc : falsyStr body.conversationId with
      | none => simp [dispatch, ha1, ha2, hc, Except.map]
      | some cid =>
        cases hg : mapGet st cid with
        | none => simp [dispatch, ha1, ha2, hc, hg, getSessionInfo, Except.map]
        | some s => simp [dispatch, ha1, ha2, hc, hg, getSessionInfo, Except.map]
    · by_cases ha3 : (falsyStr body.action).getD "chat" = "delete"
      · cases hc : falsyStr body.conversationId with
        | none => simp [dispatch, ha1, ha2, ha3, hc, Except.map]
        | some cid =>
          by_cases hp : mapHas st cid
          · simp [dispatch, ha1, ha2, ha3, hc, hp, deleteSession, saveSessions,
              Except.map]
          · simp [dispatch, ha1, ha2, ha3, hc, hp, deleteSession, saveSessions,
              Except.map]
      · cases hd : falsyStr body.dataConversationId with
        | none => simp [dispatch, ha1, ha2, ha3, hd, handleDirectChat, Except.map]
        | some cid =>
          cases hg : mapGet st cid with
          | none => simp [dispatch, ha1, ha2, ha3, hd, hg, Except.map]
          | some sess =>
            cases hm : body.messages with
            | none => simp [dispatch, ha1, ha2, ha3, hd, hg, hm, Except.map]
            | some msgs =>
              cases hl : msgs.getLast? with
              | none => simp [dispatch, ha1, ha2, ha3, hd, hg, hm, hl, Except.map]
              | some latest =>
                by_cases hr : latest.role = Role.user
                · simp [dispatch, ha1, ha2, ha3, hd, hg, hm, hl, hr,
                    handleSessionChat, saveSessions, Except.map]
                · simp [dispatch, ha1, ha2, ha3, hd, hg, hm, hl, hr, Except.map]

/-! ### Sample data for concrete evaluations -/

def sampleSession : MCPSession :=
  ⟨"mcp-c", [⟨Role.system, "You are a helpful assistant.", none⟩], [], 1, 1⟩

def sampleStore : Store :=
  [("mcp-a", ⟨"mcp-a",
      [⟨Role.system, "You are a helpful assistant.", none⟩,
       ⟨Role.user, "hello", none⟩,
       ⟨Role.assistant, "hi there", some "bot"⟩],
      [("clientInfo", Json.str "web-client"), ("createdBy", Json.str "web-client")],
      1700000000123, 1700000005456⟩),
   ("mcp-b", ⟨"mcp-b", [], [], 0, 253402300799999⟩)]

/-! ### Claim theorems -/

/-- C1: the claimed contract — a "getMessages" request returns the session's
full ordered message sequence, or a 404 for an absent id — does not hold:
the switch in `defineEventHandler` has no "getMessages" case, so the request
falls into the default chat branch, and since the top-level `conversationId`
field is not `body.data.conversationId`, `handleDirectChat` answers with a
model stream over an empty message list: no message sequence for a present
id, and no 404 for an absent one. The repository's own page
(`pages/mcp/[id].vue`, `loadSessionMessages`) posts exactly this request and
expects `{messages: [...]}`. -/
theorem getMessages_action_falls_through_to_chat :
    mcpChatHandler (some "sk") true
      [("mcp-abc", ⟨"mcp-abc",
        [⟨Role.user, "hello", none⟩, ⟨Role.assistant, "hi", none⟩], [], 0, 0⟩)] none
      ⟨some "getMessages", some "mcp-abc", none, none, none⟩ "fresh" 0
      = (.ok (.stream []),
         [("mcp-abc", ⟨"mcp-abc",
           [⟨Role.user, "hello", none⟩, ⟨Role.assistant, "hi", none⟩], [], 0, 0⟩)],
         none) ∧
    mcpChatHandler (some "sk") true [] none
      ⟨some "getMessages", some "mcp-absent", none, none, none⟩ "fresh" 0
      = (.ok (.stream []), [], none) := ⟨rfl, rfl⟩

/-- C2: the claimed contract — a "listSessions" request returns one summary
entry per stored session — does not hold: the switch has no "listSessions"
case either, so the request falls through to the default chat branch and is
answered with a model stream over an empty message list; no session summary
is ever produced (the `Response` type of the handler has no summary-list
shape at all). The repository's own sidebar (`components/MCPSidebar.vue`,
`fetchSessions`) posts this request and expects `{sessions: [...]}`. -/
theorem listSessions_action_falls_through_to_chat :
    mcpChatHandler (some "sk") true
      [("mcp-a", ⟨"mcp-a", [⟨Role.user, "hi", none⟩], [], 0, 0⟩),
       ("mcp-b", ⟨"mcp-b", [], [], 0, 0⟩)] none
      ⟨some "listSessions", none, none, none, none⟩ "fresh" 0
      = (.ok (.stream []),
         [("mcp-a", ⟨"mcp-a", [⟨Role.user, "hi", none⟩], [], 0, 0⟩),
          ("mcp-b", ⟨"mcp-b", [], [], 0, 0⟩)], none) := rfl

/-- C3 (counterexample): a "get" for an id absent from the store does not
surface a 404 carrying the id: the `catch` around the switch replaces the
404 thrown by `getSessionInfo` with status 500 and the generic message
"Failed to process request", which does not contain the id. -/
theorem get_absent_returns_500_counterexample :
    mcpChatHandler (some "sk") true [] none
      ⟨some "get", some "mcp-missing", none, none, none⟩ "fresh" 0
      = (.err 500 "Failed to process request", [], none) ∧
    (500 : Nat) ≠ 404 ∧
    ¬ List.IsInfix "mcp-missing".data "Failed to process request".data :=
  ⟨rfl, by decide, by decide⟩

/-- C3 (amended): for every id absent from the store, the "get" action fails
cleanly rather than crashing or succeeding: `getSessionInfo` raises a 404
whose message contains the requested id, but the catch-all around the switch
surfaces it to the caller as a 500 with the generic message "Failed to
process request", leaving the store and the persisted file untouched. -/
theorem get_absent_amended (k cid : String) (st : Store) (file : Option Json)
    (saveOk : Bool) (freshId : String) (now : Nat)
    (hk : k.isEmpty = false) (hcid : cid.isEmpty = false)
    (habsent : mapGet st cid = none) :
    getSessionInfo st cid = .error (.h3 404 ("Session not found: " ++ cid)) ∧
    List.IsInfix cid.data ("Session not found: " ++ cid).data ∧
    mcpChatHandler (some k) saveOk st file
        ⟨some "get", some cid, none, none, none⟩ freshId now
      = (.err 500 "Failed to process request", st, file) := by
  refine ⟨by simp [getSessionInfo, habsent], ⟨"Session not found: ".data, [], by simp⟩, ?_⟩
  simp [mcpChatHandler, missingApiKey, hk, dispatch, falsyStr, hcid,
    getSessionInfo, habsent, Except.map]
  rfl

/-- C3 (witness): the amended statement evaluated for the never-created id
"mcp-x" against the empty store. -/
theorem get_absent_amended_witness :
    ("sk".isEmpty = false ∧ "mcp-x".isEmpty = false ∧
      mapGet [] "mcp-x" = none) ∧
    (getSessionInfo [] "mcp-x"
        = .error (.h3 404 ("Session not found: " ++ "mcp-x")) ∧
      List.IsInfix "mcp-x".data ("Session not found: " ++ "mcp-x").data ∧
      mcpChatHandler (some "sk") true [] none
          ⟨some "get", some "mcp-x", none, none, none⟩ "f" 0
        = (.err 500 "Failed to process request", [], none)) :=
  ⟨⟨rfl, rfl, rfl⟩, get_absent_amended "sk" "mcp-x" [] none true "f" 0 rfl rfl rfl⟩

/-- C5 (counterexample): the assistant append performed on stream completion
does not refresh `updatedAt`: the `onFinish` callback pushes the reply and
saves, but never touches `updatedAt` (it takes no clock input at all), so a
session last updated at instant 5 still reports 5 after the append. -/
theorem assistant_append_updatedAt_counterexample :
    (onFinishAppend ⟨"mcp-a", [⟨Role.user, "hello", none⟩], [], 5, 5⟩
        "reply").updatedAt = 5 ∧
    (onFinishAppend ⟨"mcp-a", [⟨Role.user, "hello", none⟩], [], 5, 5⟩
        "reply").messages
      = [⟨Role.user, "hello", none⟩, ⟨Role.assistant, "reply", none⟩] := ⟨rfl, rfl⟩

/-- C5 (amended): of the two appends, only the user-turn append refreshes
`updatedAt` (setting it to the current time); the assistant append on stream
completion appends the reply but leaves `updatedAt` unchanged. -/
theorem updatedAt_refresh_amended (session : MCPSession) (content text : String)
    (now : Nat) :
    (appendUserTurn session content now).updatedAt = now ∧
    (appendUserTurn session content now).messages
      = session.messages ++ [⟨Role.user, content, none⟩] ∧
    (onFinishAppend session text).updatedAt = session.updatedAt ∧
    (onFinishAppend session text).messages
      = session.messages ++ [⟨Role.assistant, text, none⟩] :=
  ⟨rfl, rfl, rfl, rfl⟩

/-- C10: when the runtime configuration has no OpenAI API key (absent or the
empty string, both falsy), every request fails with a 500 "Missing OpenAI
API key" before the action switch runs, for all actions alike, and the store
and the persisted file are unchanged. -/
theorem missing_api_key_500 (saveOk : Bool) (st : Store) (file : Option Json)
    (body : Body) (freshId : String) (now : Nat) :
    mcpChatHandler none saveOk st file body freshId now
      = (.err 500 "Missing OpenAI API key", st, file) ∧
    mcpChatHandler (some "") saveOk st file body freshId now
      = (.err 500 "Missing OpenAI API key", st, file) := ⟨rfl, rfl⟩

/-- C4 (counterexample): when the newest inbound message is missing (empty
`messages` array) on a chat request against an existing session, the request
does fail and the session is unchanged, but the surfaced status is not a
400-equivalent: the catch-all converts the internal 400 "Invalid message
format" into a 500 "Failed to process request". -/
theorem chat_invalid_newest_returns_500_counterexample :
    mcpChatHandler (some "sk") true
      [("mcp-abc", ⟨"mcp-abc", [⟨Role.user, "hello", none⟩], [], 3, 3⟩)] none
      ⟨none, none, none, some [], some "mcp-abc"⟩ "fresh" 9
      = (.err 500 "Failed to process request",
         [("mcp-abc", ⟨"mcp-abc", [⟨Role.user, "hello", none⟩], [], 3, 3⟩)], none) ∧
    (500 : Nat) ≠ 400 := ⟨rfl, by decide⟩

/-- C4 (amended): for every chat request carrying an existing session id:
if the `messages` field is absent the handler trips a runtime type error
(indexing an undefined array), and if it is present but the newest message
is missing or its role is not "user" the handler raises an InvalidInput 400
"Invalid message format"; either way the catch-all surfaces a 500 and the
session (indeed the whole store, and the file) is unchanged. Otherwise the
newest message is appended to the session's history with `updatedAt`
refreshed, the store is persisted, and the full accumulated history is
submitted in order to the model provider. -/
theorem chat_validation_amended (k cid : String) (saveOk : Bool) (st : Store)
    (file : Option Json) (session : MCPSession) (freshId : String) (now : Nat)
    (hk : k.isEmpty = false) (hcid : cid.isEmpty = false)
    (hsess : mapGet st cid = some session) :
    (dispatch saveOk st file ⟨none, none, none, none, some cid⟩ freshId now
        = .error (.typeError "Cannot read properties of undefined") ∧
      mcpChatHandler (some k) saveOk st file ⟨none, none, none, none, some cid⟩
          freshId now
        = (.err 500 "Failed to process request", st, file)) ∧
    (∀ msgs : List Message,
      msgs.getLast? = none ∨ (∃ lm, msgs.getLast? = some lm ∧ lm.role ≠ Role.user) →
      dispatch saveOk st file ⟨none, none, none, some msgs, some cid⟩ freshId now
        = .error (.h3 400 "Invalid message format") ∧
      mcpChatHandler (some k) saveOk st file ⟨none, none, none, some msgs, some cid⟩
          freshId now
        = (.err 500 "Failed to process request", st, file)) ∧
    (∀ (msgs : List Message) (lm : Message),
      msgs.getLast? = some lm → lm.role = Role.user →
      mcpChatHandler (some k) saveOk st file ⟨none, none, none, some msgs, some cid⟩
          freshId now
        = (.ok (.stream (formatMessages
            (session.messages ++ [⟨Role.user, lm.content, none⟩]))),
           mapSet st cid (appendUserTurn session lm.content now),
           saveSessions saveOk
             (mapSet st cid (appendUserTurn session lm.content now)) file)) := by
  have hmk : missingApiKey (some k) = false := by simp [missingApiKey, hk]
  refine ⟨⟨?_, ?_⟩, ?_, ?_⟩
  · simp [dispatch, falsyStr, hcid, hsess]
  · simp [mcpChatHandler, hmk, dispatch, falsyStr, hcid, hsess]
  · intro msgs hbad
    have hdis : dispatch saveOk st file ⟨none, none, none, some msgs, some cid⟩
        freshId now = .error (.h3 400 "Invalid message format") := by
      rcases hbad with hnone | ⟨lm, hlast, hrole⟩
      · simp [dispatch, falsyStr, hcid, hsess, hnone]
      · simp [dispatch, falsyStr, hcid, hsess, hlast, hrole]
    exact ⟨hdis, by simp [mcpChatHandler, hmk, hdis]⟩
  · intro msgs lm hlast hrole
    simp [mcpChatHandler, hmk, dispatch, falsyStr, hcid, hsess, hlast, hrole,
      handleSessionChat, appendUserTurn]

/-- C4 (witness): the append half of the amended statement evaluated for a
one-message user turn against a stored session. -/
theorem chat_validation_amended_witness :
    ("sk".isEmpty = false ∧ "mcp-c".isEmpty = false ∧
      mapGet [("mcp-c", sampleSession)] "mcp-c" = some sampleSession) ∧
    mcpChatHandler (some "sk") true [("mcp-c", sampleSession)] none
        ⟨none, none, none, some [⟨Role.user, "hello", none⟩], some "mcp-c"⟩ "f" 9
      = (.ok (.stream (formatMessages
          (sampleSession.messages ++ [⟨Role.user, "hello", none⟩]))),
         mapSet [("mcp-c", sampleSession)] "mcp-c"
           (appendUserTurn sampleSession "hello" 9),
         saveSessions true
           (mapSet [("mcp-c", sampleSession)] "mcp-c"
             (appendUserTurn sampleSession "hello" 9)) none) :=
  ⟨⟨rfl, rfl, rfl⟩,
   (chat_validation_amended "sk" "mcp-c" true [("mcp-c", sampleSession)] none
       sampleSession "f" 9 rfl rfl rfl).2.2
     [⟨Role.user, "hello", none⟩] ⟨Role.user, "hello", none⟩ rfl rfl⟩

/-- C6: saving the in-memory session map to the persisted file and loading
it back reproduces an identical map: message order, roles, contents and
optional names survive the JSON round-trip, and both timestamps survive the
`toISOString` / `new Date` round-trip, for every map whose keys are unique
(as in any JS `Map`) and whose instants fall before year 10000 (where
`toISOString` switches to the expanded year form). -/
theorem save_load_roundtrip (st : Store)
    (hnodup : (st.map Prod.fst).Nodup)
    (hbound : ∀ p ∈ st, p.2.createdAt < isoBound ∧ p.2.updatedAt < isoBound) :
    loadSessions (some (storeToJson st)) = st :=
  loadSessions_storeToJson st hnodup hbound

/-- C6 (witness): the round-trip evaluated on a two-session store exercising
system/user/assistant roles, a present and an absent optional name,
metadata, and both a small and a near-maximal timestamp. -/
theorem save_load_roundtrip_witness :
    ((sampleStore.map Prod.fst).Nodup ∧
      ∀ p ∈ sampleStore, p.2.createdAt < isoBound ∧ p.2.updatedAt < isoBound) ∧
    loadSessions (some (storeToJson sampleStore)) = sampleStore :=
  ⟨⟨by decide, by decide⟩, save_load_roundtrip sampleStore (by decide) (by decide)⟩

/-- C7: the "delete" action is idempotent and never throws: deleting a
present id answers `success: true` with message "Session deleted" and
removes the session (persisting the shrunken map); deleting the same, now
absent, id answers `success: false` with message "Session not found" — a
normal response, not an error — and leaves store and file unchanged. -/
theorem delete_idempotent (k cid : String) (saveOk : Bool) (st : Store)
    (file : Option Json) (freshId : String) (now : Nat)
    (hk : k.isEmpty = false) (hcid : cid.isEmpty = false)
    (hpresent : mapHas st cid = true) :
    mcpChatHandler (some k) saveOk st file
        ⟨some "delete", some cid, none, none, none⟩ freshId now
      = (.ok (.deleted true "Session deleted"), mapDelete st cid,
         saveSessions saveOk (mapDelete st cid) file) ∧
    (∀ (file2 : Option Json) (freshId2 : String) (now2 : Nat),
      mcpChatHandler (some k) saveOk (mapDelete st cid) file2
          ⟨some "delete", some cid, none, none, none⟩ freshId2 now2
        = (.ok (.deleted false "Session not found"), mapDelete st cid, file2)) := by
  have hmk : missingApiKey (some k) = false := by simp [missingApiKey, hk]
  constructor
  · simp [mcpChatHandler, hmk, dispatch, falsyStr, hcid, deleteSession, hpresent]
    rfl
  · intro file2 freshId2 now2
    simp [mcpChatHandler, hmk, dispatch, falsyStr, hcid, deleteSession,
      mapHas_mapDelete, mapDelete_mapDelete]
    rfl

/-- C7 (witness): both calls evaluated against the sample store. -/
theorem delete_idempotent_witness :
    ("sk".isEmpty = false ∧ "mcp-a".isEmpty = false ∧
      mapHas sampleStore "mcp-a" = true) ∧
    mcpChatHandler (some "sk") true sampleStore none
        ⟨some "delete", some "mcp-a", none, none, none⟩ "f" 0
      = (.ok (.deleted true "Session deleted"), mapDelete sampleStore "mcp-a",
         saveSessions true (mapDelete sampleStore "mcp-a") none) ∧
    mcpChatHandler (some "sk") true (mapDelete sampleStore "mcp-a") none
        ⟨some "delete", some "mcp-a", none, none, none⟩ "g" 1
      = (.ok (.deleted false "Session not found"), mapDelete sampleStore "mcp-a",
         none) :=
  ⟨⟨rfl, rfl, by decide⟩,
   (delete_idempotent "sk" "mcp-a" true sampleStore none "f" 0 rfl rfl
     (by decide)).1,
   (delete_idempotent "sk" "mcp-a" true sampleStore none "f" 0 rfl rfl
     (by decide)).2 none "g" 1⟩

/-- C8: creating a session returns `{conversationId, metadata, createdAt,
messageCount: 0}` for the fresh id, and an immediate "get" with that id
succeeds, reporting the same id, the same metadata, the creation instant as
both timestamps, and `messageCount: 0`. -/
theorem create_then_get (k freshId : String) (saveOk : Bool) (st : Store)
    (file : Option Json) (metadata : List (String × Json)) (now : Nat)
    (hk : k.isEmpty = false) (hfresh : freshId.isEmpty = false) :
    mcpChatHandler (some k) saveOk st file
        ⟨some "create", none, some metadata, none, none⟩ freshId now
      = (.ok (.created freshId metadata (isoOfMs now) 0),
         mapSet st freshId ⟨freshId, [], metadata, now, now⟩,
         saveSessions saveOk (mapSet st freshId ⟨freshId, [], metadata, now, now⟩)
           file) ∧
    (∀ (file2 : Option Json) (freshId2 : String) (now2 : Nat),
      mcpChatHandler (some k) saveOk
          (mapSet st freshId ⟨freshId, [], metadata, now, now⟩) file2
          ⟨some "get", some freshId, none, none, none⟩ freshId2 now2
        = (.ok (.sessionInfo freshId metadata (isoOfMs now) (isoOfMs now) 0),
           mapSet st freshId ⟨freshId, [], metadata, now, now⟩, file2)) := by
  have hmk : missingApiKey (some k) = false := by simp [missingApiKey, hk]
  constructor
  · simp [mcpChatHandler, hmk, dispatch, createSession]
    rfl
  · intro file2 freshId2 now2
    simp [mcpChatHandler, hmk, dispatch, falsyStr, hfresh, getSessionInfo,
      mapGet_mapSet_self, Except.map]
    rfl

/-- C8 (witness): create-then-get evaluated for a fresh id, a metadata bag
and a concrete instant. -/
theorem create_then_get_witness :
    ("sk".isEmpty = false ∧ "mcp-new1".isEmpty = false) ∧
    mcpChatHandler (some "sk") true [] none
        ⟨some "create", none, some [("clientInfo", Json.str "web")], none, none⟩
        "mcp-new1" 1700000000123
      = (.ok (.created "mcp-new1" [("clientInfo", Json.str "web")]
           (isoOfMs 1700000000123) 0),
         mapSet [] "mcp-new1"
           ⟨"mcp-new1", [], [("clientInfo", Json.str "web")], 1700000000123,
            1700000000123⟩,
         saveSessions true
           (mapSet [] "mcp-new1"
             ⟨"mcp-new1", [], [("clientInfo", Json.str "web")], 1700000000123,
              1700000000123⟩) none) ∧
    mcpChatHandler (some "sk") true
        (mapSet [] "mcp-new1"
          ⟨"mcp-new1", [], [("clientInfo", Json.str "web")], 1700000000123,
           1700000000123⟩) none
        ⟨some "get", some "mcp-new1", none, none, none⟩ "g" 1700000009999
      = (.ok (.sessionInfo "mcp-new1" [("clientInfo", Json.str "web")]
           (isoOfMs 1700000000123) (isoOfMs 1700000000123) 0),
         mapSet [] "mcp-new1"
           ⟨"mcp-new1", [], [("clientInfo", Json.str "web")], 1700000000123,
            1700000000123⟩, none) :=
  ⟨⟨rfl, rfl⟩,
   (create_then_get "sk" "mcp-new1" true [] none [("clientInfo", Json.str "web")]
     1700000000123 rfl rfl).1,
   (create_then_get "sk" "mcp-new1" true [] none [("clientInfo", Json.str "web")]
     1700000000123 rfl rfl).2 none "g" 1700000009999⟩

/-- C9: a failing disk write never reaches the caller: for every request,
the response and the resulting in-memory store are identical whether the
write succeeds or fails, and on failure the file keeps its previous
contents; a failing (or absent) read at startup yields the empty map rather
than a crash. -/
theorem persistence_failure_never_propagates (k : String) (st : Store)
    (file : Option Json) (body : Body) (freshId : String) (now : Nat)
    (hk : k.isEmpty = false) :
    (mcpChatHandler (some k) false st file body freshId now).1
      = (mcpChatHandler (some k) true st file body freshId now).1 ∧
    (mcpChatHandler (some k) false st file body freshId now).2.1
      = (mcpChatHandler (some k) true st file body freshId now).2.1 ∧
    (mcpChatHandler (some k) false st file body freshId now).2.2 = file ∧
    loadSessions none = [] := by
  have hmk : missingApiKey (some k) = false := by simp [missingApiKey, hk]
  refine ⟨?_, ?_, ?_, rfl⟩ <;>
  · simp only [mcpChatHandler, hmk, Bool.false_eq_true, if_false, dispatch_saveFail]
    cases hdt : dispatch true st file body freshId now with
    | error e => simp [Except.map]
    | ok r =>
      obtain ⟨r1, r2, r3⟩ := r
      simp [Except.map]

/-- C9 (witness): the save-failure comparison evaluated for a "create"
request against the empty store, plus the empty-map load. -/
theorem persistence_failure_never_propagates_witness :
    ("sk".isEmpty = false) ∧
    ((mcpChatHandler (some "sk") false [] none
        ⟨some "create", none, none, none, none⟩ "mcp-n" 3).1
      = (mcpChatHandler (some "sk") true [] none
          ⟨some "create", none, none, none, none⟩ "mcp-n" 3).1 ∧
     (mcpChatHandler (some "sk") false [] none
        ⟨some "create", none, none, none, none⟩ "mcp-n" 3).2.1
      = (mcpChatHandler (some "sk") true [] none
          ⟨some "create", none, none, none, none⟩ "mcp-n" 3).2.1 ∧
     (mcpChatHandler (some "sk") false [] none
        ⟨some "create", none, none, none, none⟩ "mcp-n" 3).2.2 = none ∧
     loadSessions none = []) :=
  ⟨rfl, persistence_failure_never_propagates "sk" [] none
    ⟨some "create", none, none, none, none⟩ "mcp-n" 3 rfl⟩
